import Mathlib

/-!
Verification of the concurrent multi-provider match/search subsystem of the
kerkerker media-aggregation application.

The embedding models the direct-call streaming route
(`src/app/api/douban/match-vod-stream/route.ts`, third copy: `getMatchConfidence`,
`searchSingleSource`, `GET`), the text-first adapter variant (second copy of the
same file), the registry read path (`src/lib/vod-sources-db.ts`:
`docToVodSource`, `getVodSourcesFromDB`) and the client-side ranking comparator
(`src/app/page.tsx`, `searchPlaySources`).

JavaScript strings are modelled as `List Char`; `toLowerCase`, `trim`,
`includes` and `startsWith` become the explicit functions below.  Fallible
steps of the adapter (fetch rejection, non-2xx status, JSON.parse failure) are
modelled by the `ProviderResponse` input type, and the JavaScript event loop's
serialisation of the per-task counter increments is modelled by an explicit
arrival (settlement) order, quantified over all permutations of the provider
snapshot.
-/

/-! ## JavaScript string primitives over `List Char` -/

/-- Model of `String.prototype.toLowerCase` (ASCII case mapping, as `Char.toLower`). -/
def jsToLower (s : List Char) : List Char := s.map Char.toLower

/-- Model of `String.prototype.trim`: drop leading and trailing whitespace. -/
def jsTrim (s : List Char) : List Char :=
  ((s.dropWhile Char.isWhitespace).reverse.dropWhile Char.isWhitespace).reverse

/-- Model of `String.prototype.startsWith`: `pre` is a leading segment of `s`. -/
def jsStartsWith : List Char → List Char → Bool
  | _, [] => true
  | [], _ :: _ => false
  | c :: cs, d :: ds => c == d && jsStartsWith cs ds

/-- Model of `String.prototype.includes`: `needle` occurs contiguously in `hay`. -/
def jsIncludes : List Char → List Char → Bool
  | hay, needle =>
    if jsStartsWith hay needle then true
    else
      match hay with
      | [] => false
      | _ :: rest => jsIncludes rest needle

/-- Insert `m` into `l` after every element `b` with `le b m`.  Used to model
comparator-based stable sorting (JavaScript `Array.prototype.sort` and the
MongoDB `sort`) by structurally-recursive insertion, so that concrete runs
evaluate inside the kernel. -/
def insertBy {α : Type} (le : α → α → Bool) (m : α) : List α → List α
  | [] => [m]
  | b :: l => if le b m then b :: insertBy le m l else m :: b :: l

/-- Stable sort by the "keep before" relation `le`: elements arriving later
are inserted after earlier elements they tie with, which is exactly the
stability guarantee of `Array.prototype.sort` for a consistent comparator. -/
def stableSortBy {α : Type} (le : α → α → Bool) (l : List α) : List α :=
  l.foldl (fun acc m => insertBy le m acc) []

/-! ## Data model -/

/-- Match confidence tier (`'high' | 'medium' | 'low'`). -/
inductive Confidence where
  | high
  | medium
  | low
deriving DecidableEq, Repr

/-- Function `getMatchConfidence` from `route.ts` (identical in all three copies):
normalise both strings with `toLowerCase().trim()`, `high` on equality,
`medium` on containment either way, `low` otherwise. -/
def getMatchConfidence (vodName title : List Char) : Confidence :=
  let normalizedVodName := jsTrim (jsToLower vodName)
  let normalizedTitle := jsTrim (jsToLower title)
  if normalizedVodName = normalizedTitle then .high
  else if jsIncludes normalizedVodName normalizedTitle
       || jsIncludes normalizedTitle normalizedVodName then .medium
  else .low

/-- Stored document `VodSourceDoc` (`src/lib/vod-sources-db.ts`): the stored registry document.
The constant `type: 'json'` field is omitted; `_id` is irrelevant to every
claim and omitted (it only serves as a final sort tie-break in Mongo). -/
structure VodSourceDoc where
  key : String
  name : String
  api : String
  play_url : Option String
  use_play_url : Option Bool
  priority : Option Int
  enabled : Bool
  sort_order : Int
  created_at : Int
  updated_at : Int
deriving DecidableEq, Repr

/-- Descriptor `VodSource` (`src/types/drama.ts`): the in-memory provider descriptor.
The constant `type: 'json'` field is omitted. -/
structure VodSource where
  key : String
  name : String
  api : String
  playUrl : Option String
  usePlayUrl : Option Bool
  priority : Option Int
deriving DecidableEq, Repr

/-- Conversion `docToVodSource` (`src/lib/vod-sources-db.ts`): note `priority ?? 0` —
an absent stored priority becomes an explicit `0` on the read path. -/
def docToVodSource (doc : VodSourceDoc) : VodSource :=
  { key := doc.key
    name := doc.name
    api := doc.api
    playUrl := doc.play_url
    usePlayUrl := some (doc.use_play_url.getD true)
    priority := some (doc.priority.getD 0) }

/-- MongoDB ascending comparison on a possibly-missing numeric field:
a missing value sorts before every number. -/
def mongoOptIntLt : Option Int → Option Int → Bool
  | none, some _ => true
  | none, none => false
  | some _, none => false
  | some a, some b => a < b

/-- The `sort({priority: 1, sort_order: 1, _id: 1})` order used by
`getVodSourcesFromDB` (the `_id` tie-break, reached only when both keys tie,
is omitted). -/
def docLe (a b : VodSourceDoc) : Bool :=
  if a.priority = b.priority then a.sort_order ≤ b.sort_order
  else mongoOptIntLt a.priority b.priority

/-- Registry read `getVodSourcesFromDB` (`src/lib/vod-sources-db.ts`): filter the enabled
documents, sort them, and convert with `docToVodSource`.  The stored
collection is the `docs` argument. -/
def getVodSourcesFromDB (docs : List VodSourceDoc) : List VodSource :=
  (stableSortBy docLe (docs.filter (·.enabled))).map docToVodSource

/-! ## Provider Query Adapter -/

/-- One candidate of a provider's search response; the matcher reads only
`vod_id` and `vod_name` (the remaining optional display fields of
`DramaListResponse.list` items are never consulted by this route). -/
structure DramaItem where
  vod_id : Int
  vod_name : List Char
deriving DecidableEq, Repr

/-- Response shape `DramaListResponse` as far as the matcher reads it: `code`, `msg`, `list`.
Fields are optional because a JSON body of an unexpected shape simply lacks
them (`data.code !== 1` is then true, `!data.list` is then true). -/
structure DramaListResponse where
  code : Option Int
  msg : Option String
  list : Option (List DramaItem)
deriving DecidableEq, Repr

/-- The observable behaviour of one provider's HTTP endpoint for one request.
`failure` covers a rejected fetch: network error or `AbortSignal.timeout`
expiry.  `success ok text parsed` is a delivered response: `ok` is
`response.ok` (status in 2xx), `text` the body text, and `parsed` the result
of `JSON.parse(text)` — `none` when the body is not valid JSON (for example
an HTML or XML error page), in which case `response.json()` throws. -/
inductive ProviderResponse where
  | failure
  | success (ok : Bool) (text : List Char) (parsed : Option DramaListResponse)
deriving DecidableEq, Repr

/-- Structure `MatchResult` from `route.ts`. -/
structure MatchResult where
  source_key : String
  source_name : String
  vod_id : Int
  vod_name : List Char
  match_confidence : Confidence
  priority : Int
deriving DecidableEq, Repr

/-- The `bestMatch` selection of the direct-call `searchSingleSource`
(`route.ts` lines 560-590): exact match on `toLowerCase().trim()` first, then
the containment check — which lowercases but does **not** trim the candidate
name — then `list[0]`. -/
def selectBestMatch (list : List DramaItem) (keyword : List Char) : Option DramaItem :=
  let normalizedKeyword := jsTrim (jsToLower keyword)
  match list.find? (fun item => jsTrim (jsToLower item.vod_name) = normalizedKeyword) with
  | some m => some m
  | none =>
    match list.find? (fun item =>
        jsIncludes (jsToLower item.vod_name) normalizedKeyword
        || jsIncludes normalizedKeyword (jsToLower item.vod_name)) with
    | some m => some m
    | none => list.head?

/-- Direct-call `searchSingleSource` (`route.ts` lines 522-597).  The whole
body sits in a `try`/`catch` returning `null`, so a rejected fetch or a
throwing `response.json()` yields `none`; a non-2xx status, `code !== 1`, a
missing list and an empty list each return `null` explicitly.  The function
is total: the adapter never propagates an exception. -/
def searchSingleSource (source : VodSource) (keyword : List Char)
    (resp : ProviderResponse) : Option MatchResult :=
  match resp with
  | .failure => none
  | .success ok _text parsed =>
    if !ok then none
    else
      match parsed with
      | none => none
      | some data =>
        if data.code ≠ some 1 then none
        else
          let list := data.list.getD []
          if list.isEmpty then none
          else
            match selectBestMatch list keyword with
            | none => none
            | some bestMatch =>
              some { source_key := source.key
                     source_name := source.name
                     vod_id := bestMatch.vod_id
                     vod_name := bestMatch.vod_name
                     match_confidence := getMatchConfidence bestMatch.vod_name keyword
                     priority := source.priority.getD 999 }

/-- Text-first `searchSingleSource` (`route.ts` lines 263-365, second copy):
reads the body as text, rejects XML/HTML pages by prefix, then parses JSON in
an inner `try`/`catch`.  Its containment check lowercases both sides but trims
neither (`title.toLowerCase()`, not trimmed). -/
def searchSingleSourceTextFirst (source : VodSource) (title : List Char)
    (resp : ProviderResponse) : Option MatchResult :=
  match resp with
  | .failure => none
  | .success ok text parsed =>
    if !ok then none
    else if jsStartsWith text "<?xml".data
         || jsStartsWith text "<!DOCTYPE".data
         || jsStartsWith text "<html".data then none
    else
      match parsed with
      | none => none
      | some data =>
        if data.code ≠ some 1 ∨ data.list = none ∨ data.list.getD [] = [] then none
        else
          let list := data.list.getD []
          let exact := list.find? (fun item =>
            jsTrim (jsToLower item.vod_name) = jsTrim (jsToLower title))
          let contained := list.find? (fun item =>
            jsIncludes (jsToLower item.vod_name) (jsToLower title)
            || jsIncludes (jsToLower title) (jsToLower item.vod_name))
          match (match exact with
                 | some m => some m
                 | none => match contained with
                   | some m => some m
                   | none => list.head?) with
          | none => none
          | some bestMatch =>
            some { source_key := source.key
                   source_name := source.name
                   vod_id := bestMatch.vod_id
                   vod_name := bestMatch.vod_name
                   match_confidence := getMatchConfidence bestMatch.vod_name title
                   priority := source.priority.getD 999 }

/-- The selection rule exactly as the C6 claim (and §4.1 step 4 of the spec)
words it: step (b) compares the *trimmed* lowercased candidate name with the
normalised title.  Declared only to be compared against the source's
`selectBestMatch`. -/
def bestMatchSpec (list : List DramaItem) (keyword : List Char) : Option DramaItem :=
  let nk := jsTrim (jsToLower keyword)
  match list.find? (fun item => jsTrim (jsToLower item.vod_name) = nk) with
  | some m => some m
  | none =>
    match list.find? (fun item =>
        jsIncludes (jsTrim (jsToLower item.vod_name)) nk
        || jsIncludes nk (jsTrim (jsToLower item.vod_name))) with
    | some m => some m
    | none => list.head?

/-! ## Match Orchestrator and Result Stream Encoder

The route's `GET` handler emits one `init` SSE event, then — as each
per-provider task settles — increments `completedCount` on the single
JavaScript event-loop thread and emits one `result` event, and finally emits
one `done` event after `Promise.all` resolves.  The settlement order is
determined by external latency only, so it is modelled as an explicit
`arrival` list, quantified in the theorems over every permutation of the
provider snapshot `allSources`. -/

/-- The three SSE event payloads produced by `GET`.  The `result` payload's
`match` field is named `matched` (`match` is reserved in Lean). -/
inductive StreamEvent where
  | init (doubanId : Option String) (title cleanedTitle : List Char) (totalSources : Nat)
  | result (sourceKey sourceName : String) (matched : Option MatchResult)
      (completed total : Nat)
  | done (totalSources foundCount : Nat)
deriving DecidableEq, Repr

/-- The `completed` counter carried by a `result` event. -/
def StreamEvent.completedOf : StreamEvent → Option Nat
  | .result _ _ _ completed _ => some completed
  | _ => none

/-- Whether an event is a `result` event. -/
def StreamEvent.isResult : StreamEvent → Bool
  | .result _ _ _ _ _ => true
  | _ => false

/-- Whether an event is a `result` event carrying a non-null match. -/
def StreamEvent.isFoundResult : StreamEvent → Bool
  | .result _ _ (some _) _ _ => true
  | _ => false

/-- Replace the `doubanId` echoed in an `init` event by `none`, leaving every
other event — and every other field — untouched. -/
def StreamEvent.scrubDoubanId : StreamEvent → StreamEvent
  | .init _ title cleanedTitle totalSources => .init none title cleanedTitle totalSources
  | e => e

/-- The `result` events, in settlement order: the task settling with
`completedSoFar` earlier completions observes and emits
`completed = completedSoFar + 1` (the `completedCount++` runs on the event
loop, so increments are serialised). -/
def resultEvents (total : Nat) (outcome : VodSource → Option MatchResult) :
    Nat → List VodSource → List StreamEvent
  | _, [] => []
  | completedSoFar, source :: rest =>
    .result source.key source.name (outcome source) (completedSoFar + 1) total
      :: resultEvents total outcome (completedSoFar + 1) rest

/-- The `foundCount` accumulated by the stream: one per settled task whose
`searchSingleSource` result was non-null. -/
def foundCount (outcome : VodSource → Option MatchResult)
    (arrival : List VodSource) : Nat :=
  arrival.countP (fun s => (outcome s).isSome)

/-- The full SSE event sequence of one search: `init`, the `result` events in
settlement order, then `done`. -/
def streamEvents (doubanId : Option String) (title cleanedTitle : List Char)
    (allSources arrival : List VodSource)
    (outcome : VodSource → Option MatchResult) : List StreamEvent :=
  .init doubanId title cleanedTitle allSources.length
    :: (resultEvents allSources.length outcome 0 arrival
        ++ [.done allSources.length (foundCount outcome arrival)])

/-- The two response shapes of the endpoint: a plain HTTP error, or an SSE
stream of events. -/
inductive GetResponse where
  | error (status : Nat) (body : String)
  | stream (events : List StreamEvent)
deriving DecidableEq, Repr

/-- Apply `StreamEvent.scrubDoubanId` to every event of a stream response;
error responses are untouched. -/
def GetResponse.scrubDoubanId : GetResponse → GetResponse
  | .stream events => .stream (events.map StreamEvent.scrubDoubanId)
  | e => e

/-- The `GET` handler of `match-vod-stream/route.ts` (third copy, lines
599-703).  `clean` stands for `cleanTitleForSearch` (imported there from
`@/lib/utils/title-utils`, whose implementation is not part of this tree; no
claim depends on its behaviour, so it is a parameter).  `allSources` is the
registry snapshot returned by `getVodSourcesFromDB`, `arrival` the settlement
order of the per-provider tasks, and `responses` the behaviour of each
provider's endpoint.  The `catch` branch of the per-source callback is dead
code in this model because `searchSingleSource` is total, mirroring the
source function, which itself catches everything. -/
def matchVodStreamGET (clean : List Char → List Char) (title : Option (List Char))
    (doubanId : Option String) (allSources arrival : List VodSource)
    (responses : VodSource → ProviderResponse) : GetResponse :=
  match title with
  | none => .error 400 "Missing title parameter"
  | some t =>
    if allSources.length = 0 then .error 404 "No video sources configured"
    else
      .stream (streamEvents doubanId t (clean t) allSources arrival
        (fun s => searchSingleSource s (clean t) (responses s)))

/-! ## Client-side ranking (`src/app/page.tsx`, `searchPlaySources`) -/

/-- The confidence rank table `{ high: 3, medium: 2, low: 1 }`. -/
def confidenceOrder : Confidence → Nat
  | .high => 3
  | .medium => 2
  | .low => 1

/-- The sort comparator of `searchPlaySources` (lines 1225-1233), as the
"keep `a` before `b`" relation `comparator(a, b) <= 0` used by the stable
`Array.prototype.sort`: `priority` ascending first, then
`order[b.match_confidence] - order[a.match_confidence]` (confidence
descending) within equal priority. -/
def matchLe (a b : MatchResult) : Bool :=
  if a.priority ≠ b.priority then a.priority < b.priority
  else confidenceOrder b.match_confidence ≤ confidenceOrder a.match_confidence

/-- Model of `[...allMatches].sort(comparator)`: a stable sort by `matchLe`. -/
def sortMatches (l : List MatchResult) : List MatchResult := stableSortBy matchLe l

/-- The arrival loop of `searchPlaySources`: each non-null match is pushed
onto `allMatches` and the displayed view is recomputed as a fresh sort of the
whole collection.  Returns `(allMatches, sorted view)` after all arrivals. -/
def processArrivals (arrivals : List MatchResult) :
    List MatchResult × List MatchResult :=
  arrivals.foldl (fun st m =>
    let all := st.1 ++ [m]
    (all, sortMatches all)) ([], [])

/-- The `(priority, confidence)` sort key of a result. -/
def matchKey (m : MatchResult) : Int × Nat :=
  (m.priority, confidenceOrder m.match_confidence)

/-- Sortedness with respect to a Bool-valued "keep before" relation. -/
def SortedBy {α : Type} (le : α → α → Bool) (l : List α) : Prop :=
  l.Pairwise (fun a b => le a b = true)

/-! ## Concrete instances used by the witnesses and counterexamples -/

/-- Concrete results used to exercise `ranking_arrival_invariance`. -/
def wrA : MatchResult :=
  { source_key := "a", source_name := "A", vod_id := 1, vod_name := "x".data,
    match_confidence := .high, priority := 1 }

def wrB : MatchResult :=
  { source_key := "b", source_name := "B", vod_id := 2, vod_name := "y".data,
    match_confidence := .low, priority := 1 }

def wrC : MatchResult :=
  { source_key := "c", source_name := "C", vod_id := 3, vod_name := "z".data,
    match_confidence := .medium, priority := 0 }

/-- Concrete providers and responses used by the stream witnesses. -/
def ws1 : VodSource :=
  { key := "s1", name := "S1", api := "http://a", playUrl := none,
    usePlayUrl := some true, priority := some 0 }

def ws2 : VodSource :=
  { key := "s2", name := "S2", api := "http://b", playUrl := none,
    usePlayUrl := some true, priority := some 1 }

/-- A stored registry document that is disabled. -/
def wDisabledDoc : VodSourceDoc :=
  { key := "s9", name := "S9", api := "http://c", play_url := none,
    use_play_url := none, priority := some 3, enabled := false, sort_order := 0,
    created_at := 0, updated_at := 0 }

/-- A stored registry document with no explicit priority. -/
def cxDocNoPrio : VodSourceDoc :=
  { key := "s1", name := "S1", api := "http://a", play_url := none,
    use_play_url := none, priority := none, enabled := true, sort_order := 0,
    created_at := 0, updated_at := 0 }

/-- A stored registry document with explicit priority 5. -/
def cxDocPrio5 : VodSourceDoc :=
  { key := "s2", name := "S2", api := "http://b", play_url := none,
    use_play_url := none, priority := some 5, enabled := true, sort_order := 0,
    created_at := 0, updated_at := 0 }

/-- A provider response holding one candidate named exactly like the title. -/
def cxResp : ProviderResponse :=
  .success true []
    (some { code := some 1, msg := none, list := some [⟨7, "t".data⟩] })

/-- The result the no-priority provider produces for title `"t"`. -/
def cxResultNoPrio : MatchResult :=
  { source_key := "s1", source_name := "S1", vod_id := 7, vod_name := "t".data,
    match_confidence := .high, priority := 0 }

/-- The result the priority-5 provider produces for title `"t"`. -/
def cxResultPrio5 : MatchResult :=
  { source_key := "s2", source_name := "S2", vod_id := 7, vod_name := "t".data,
    match_confidence := .high, priority := 5 }

/-- First candidate of the C6 counterexample list. -/
def cxItemZzz : DramaItem := ⟨1, "zzz".data⟩

/-- Second candidate of the C6 counterexample list: its lowercased name
carries surrounding whitespace. -/
def cxItemAbc : DramaItem := ⟨2, " abc ".data⟩

/-! ## Generic facts about the stable insertion sort -/

theorem insertBy_perm {α : Type} (le : α → α → Bool) (m : α) (l : List α) :
    (insertBy le m l).Perm (m :: l) := by
  induction l with
  | nil => exact List.Perm.refl _
  | cons b t ih =>
    unfold insertBy
    split
    · exact ((ih).cons b).trans (List.Perm.swap m b t)
    · exact List.Perm.refl _

theorem stableSortBy_perm_aux {α : Type} (le : α → α → Bool) :
    ∀ (l acc : List α), (l.foldl (fun acc m => insertBy le m acc) acc).Perm (acc ++ l) := by
  intro l
  induction l with
  | nil => intro acc; simp
  | cons m t ih =>
    intro acc
    have h1 := ih (insertBy le m acc)
    have h2 : (insertBy le m acc ++ t).Perm (acc ++ m :: t) := by
      have hx : (insertBy le m acc ++ t).Perm ((m :: acc) ++ t) :=
        List.Perm.append_right t (insertBy_perm le m acc)
      exact hx.trans (by simpa using (@List.perm_middle _ m acc t).symm)
    simpa using h1.trans h2

theorem stableSortBy_perm {α : Type} (le : α → α → Bool) (l : List α) :
    (stableSortBy le l).Perm l := by
  simpa [stableSortBy] using stableSortBy_perm_aux le l []

theorem insertBy_sorted {α : Type} {le : α → α → Bool}
    (htot : ∀ a b, (le a b || le b a) = true)
    (htrans : ∀ a b c, le a b = true → le b c = true → le a c = true)
    (m : α) {l : List α} (hs : SortedBy le l) : SortedBy le (insertBy le m l) := by
  induction l with
  | nil => exact List.pairwise_cons.mpr ⟨by simp, List.Pairwise.nil⟩
  | cons b t ih =>
    rcases List.pairwise_cons.mp hs with ⟨hb, ht⟩
    unfold insertBy
    split
    · rename_i hbm
      refine List.pairwise_cons.mpr ⟨?_, ih ht⟩
      intro x hx
      rcases List.mem_cons.mp ((insertBy_perm le m t).mem_iff.mp hx) with h | h
      · subst h; exact hbm
      · exact hb x h
    · rename_i hbm
      have hmb : le m b = true := by
        have := htot m b
        simp only [Bool.or_eq_true] at this
        rcases this with h | h
        · exact h
        · exact absurd h hbm
      refine List.pairwise_cons.mpr ⟨?_, hs⟩
      intro x hx
      rcases List.mem_cons.mp hx with h | h
      · subst h; exact hmb
      · exact htrans m b x hmb (hb x h)

theorem stableSortBy_sorted {α : Type} {le : α → α → Bool}
    (htot : ∀ a b, (le a b || le b a) = true)
    (htrans : ∀ a b c, le a b = true → le b c = true → le a c = true)
    (l : List α) : SortedBy le (stableSortBy le l) := by
  have aux : ∀ (l acc : List α), SortedBy le acc →
      SortedBy le (l.foldl (fun acc m => insertBy le m acc) acc) := by
    intro l
    induction l with
    | nil => intro acc h; simpa using h
    | cons m t ih =>
      intro acc h
      exact ih (insertBy le m acc) (insertBy_sorted htot htrans m h)
  exact aux l [] List.Pairwise.nil

/-- Two sorted permutations of a key-distinct collection coincide, provided
mutual `le` forces equal keys. -/
theorem sortedBy_perm_unique {α K : Type} {le : α → α → Bool} {key : α → K}
    (hanti : ∀ a b, le a b = true → le b a = true → key a = key b) :
    ∀ (l₁ l₂ : List α), l₁.Perm l₂ → SortedBy le l₁ → SortedBy le l₂ →
      l₁.Pairwise (fun a b => key a ≠ key b) → l₁ = l₂ := by
  intro l₁
  induction l₁ with
  | nil =>
    intro l₂ hp _ _ _
    exact hp.nil_eq
  | cons a t₁ ih =>
    intro l₂ hp hs₁ hs₂ hd
    cases l₂ with
    | nil => exact absurd hp.symm (by simp)
    | cons b t₂ =>
      by_cases hab : a = b
      · subst hab
        have hpt := hp.cons_inv
        have := ih t₂ hpt (List.pairwise_cons.mp hs₁).2 (List.pairwise_cons.mp hs₂).2
          (List.pairwise_cons.mp hd).2
        rw [this]
      · have hb1 : b ∈ a :: t₁ := hp.symm.mem_iff.mp (List.mem_cons_self b t₂)
        have hbt₁ : b ∈ t₁ := by
          rcases List.mem_cons.mp hb1 with h | h
          · exact absurd h.symm hab
          · exact h
        have ha2 : a ∈ b :: t₂ := hp.mem_iff.mp (List.mem_cons_self a t₁)
        have hat₂ : a ∈ t₂ := by
          rcases List.mem_cons.mp ha2 with h | h
          · exact absurd h hab
          · exact h
        have h1 : le a b = true := List.rel_of_pairwise_cons hs₁ hbt₁
        have h2 : le b a = true := List.rel_of_pairwise_cons hs₂ hat₂
        have hkey : key a = key b := hanti a b h1 h2
        have hne : key a ≠ key b := List.rel_of_pairwise_cons hd hbt₁
        exact absurd hkey hne

/-! ## Properties of the client-side comparator -/

theorem matchLe_iff (a b : MatchResult) :
    matchLe a b = true ↔ a.priority < b.priority
      ∨ (a.priority = b.priority
         ∧ confidenceOrder b.match_confidence ≤ confidenceOrder a.match_confidence) := by
  simp only [matchLe]
  by_cases h : a.priority = b.priority <;> simp [h]

theorem matchLe_total (a b : MatchResult) : (matchLe a b || matchLe b a) = true := by
  simp only [Bool.or_eq_true, matchLe_iff]
  omega

theorem matchLe_trans (a b c : MatchResult) :
    matchLe a b = true → matchLe b c = true → matchLe a c = true := by
  simp only [matchLe_iff]
  omega

theorem matchLe_antisymm_key (a b : MatchResult) :
    matchLe a b = true → matchLe b a = true → matchKey a = matchKey b := by
  simp only [matchLe_iff, matchKey, Prod.mk.injEq]
  intro h1 h2
  constructor
  · omega
  · have hp : a.priority = b.priority := by omega
    simp only [hp] at h1 h2 ⊢
    omega

/-- The state reached by the arrival loop: `allMatches` is the pushes in
arrival order, and the view is the sort of the whole collection. -/
theorem processArrivals_eq (arrivals : List MatchResult) :
    processArrivals arrivals = (arrivals, sortMatches arrivals) := by
  have aux : ∀ (l acc : List MatchResult) (v : List MatchResult),
      l.foldl (fun st m => let all := st.1 ++ [m]; (all, sortMatches all)) (acc, v)
        = (acc ++ l, if l = [] then v else sortMatches (acc ++ l)) := by
    intro l
    induction l with
    | nil => intro acc v; simp
    | cons m t ih =>
      intro acc v
      rw [List.foldl_cons, ih (acc ++ [m]) (sortMatches (acc ++ [m]))]
      cases t with
      | nil => simp
      | cons x xs => simp
  cases arrivals with
  | nil => rfl
  | cons m t =>
    have := aux (m :: t) [] []
    simpa [processArrivals] using this

/-! ## Accounting facts about the emitted `result` events -/

theorem resultEvents_length (total : Nat) (outcome : VodSource → Option MatchResult) :
    ∀ (k : Nat) (l : List VodSource), (resultEvents total outcome k l).length = l.length := by
  intro k l
  induction l generalizing k with
  | nil => rfl
  | cons s t ih => simp [resultEvents, ih]

theorem resultEvents_get_completedOf (total : Nat) (outcome : VodSource → Option MatchResult) :
    ∀ (l : List VodSource) (k i : Nat) (h : i < (resultEvents total outcome k l).length),
      ((resultEvents total outcome k l).get ⟨i, h⟩).completedOf = some (k + i + 1) := by
  intro l
  induction l with
  | nil => intro k i h; simp [resultEvents] at h
  | cons s t ih =>
    intro k i h
    cases i with
    | zero => simp [resultEvents, StreamEvent.completedOf]
    | succ j =>
      have hj : j < (resultEvents total outcome (k + 1) t).length := by
        simp only [resultEvents, List.length_cons] at h
        omega
      have := ih (k + 1) j hj
      simpa [resultEvents, Nat.add_assoc, Nat.add_comm, Nat.add_left_comm] using this

theorem resultEvents_getLast_completedOf (total : Nat)
    (outcome : VodSource → Option MatchResult) :
    ∀ (l : List VodSource) (k : Nat), l ≠ [] →
      ((resultEvents total outcome k l).getLast?.bind StreamEvent.completedOf)
        = some (k + l.length) := by
  intro l
  induction l with
  | nil => intro k h; exact absurd rfl h
  | cons s t ih =>
    intro k _
    cases t with
    | nil => simp [resultEvents, StreamEvent.completedOf]
    | cons x xs =>
      have h2 := ih (k + 1) (by simp)
      have hcons : resultEvents total outcome k (s :: x :: xs)
          = StreamEvent.result s.key s.name (outcome s) (k + 1) total
            :: resultEvents total outcome (k + 1) (x :: xs) := rfl
      have hcons2 : resultEvents total outcome (k + 1) (x :: xs)
          = StreamEvent.result x.key x.name (outcome x) (k + 1 + 1) total
            :: resultEvents total outcome (k + 1 + 1) xs := rfl
      rw [hcons, hcons2, List.getLast?_cons_cons, ← hcons2, h2]
      simp only [Option.some.injEq, List.length_cons]
      omega

theorem resultEvents_isResult (total : Nat) (outcome : VodSource → Option MatchResult) :
    ∀ (l : List VodSource) (k : Nat) (e : StreamEvent),
      e ∈ resultEvents total outcome k l → e.isResult = true := by
  intro l
  induction l with
  | nil => intro k e h; simp [resultEvents] at h
  | cons s t ih =>
    intro k e h
    rcases List.mem_cons.mp h with h | h
    · subst h; rfl
    · exact ih (k + 1) e h

theorem resultEvents_countP_found (total : Nat) (outcome : VodSource → Option MatchResult) :
    ∀ (l : List VodSource) (k : Nat),
      (resultEvents total outcome k l).countP StreamEvent.isFoundResult
        = foundCount outcome l := by
  intro l
  induction l with
  | nil => intro k; rfl
  | cons s t ih =>
    intro k
    cases hos : outcome s with
    | none =>
      simp [resultEvents, foundCount, List.countP_cons, StreamEvent.isFoundResult, hos,
        ih (k + 1), foundCount]
    | some r =>
      simp [resultEvents, foundCount, List.countP_cons, StreamEvent.isFoundResult, hos,
        ih (k + 1), foundCount]

theorem resultEvents_map_scrub_eq (total : Nat) (outcome : VodSource → Option MatchResult)
    (scrub : StreamEvent → StreamEvent)
    (hres : ∀ sk sn m c t, scrub (.result sk sn m c t) = .result sk sn m c t) :
    ∀ (l : List VodSource) (k : Nat),
      (resultEvents total outcome k l).map scrub = resultEvents total outcome k l := by
  intro l
  induction l with
  | nil => intro k; rfl
  | cons s t ih =>
    intro k
    simp [resultEvents, hres, ih (k + 1)]

/-- Whenever the direct-call adapter produces a result, its `priority` field
is `source.priority ?? 999`. -/
theorem searchSingleSource_priority (s : VodSource) (kw : List Char)
    (resp : ProviderResponse) (r : MatchResult)
    (h : searchSingleSource s kw resp = some r) :
    r.priority = s.priority.getD 999 := by
  cases resp with
  | failure => simp [searchSingleSource] at h
  | success ok text parsed =>
    cases ok with
    | false => simp [searchSingleSource] at h
    | true =>
      cases parsed with
      | none => simp [searchSingleSource] at h
      | some data =>
        simp only [searchSingleSource, Bool.not_true, Bool.false_eq_true, if_false] at h
        split at h
        · simp at h
        · split at h
          · simp at h
          · split at h
            · simp at h
            · rw [Option.some.injEq] at h
              rw [← h]

/-! ## Claims -/

/-- C5: the confidence scorer is a pure function of the two strings: it
returns `high` exactly when the two are equal after lowercasing and trimming,
`medium` exactly when they are not equal but one normalised string contains
the other, and `low` otherwise; `score("Avatar", "avatar") = high`,
`score("Avatar: Way of Water", "Avatar") = medium`,
`score("Inception", "Avatar") = low`, and repeated calls on the same inputs
give the same answer. -/
theorem confidence_scorer_characterization (vodName title : List Char) :
    getMatchConfidence vodName title = getMatchConfidence vodName title
    ∧ (getMatchConfidence vodName title = .high
        ↔ jsTrim (jsToLower vodName) = jsTrim (jsToLower title))
    ∧ (getMatchConfidence vodName title = .medium
        ↔ jsTrim (jsToLower vodName) ≠ jsTrim (jsToLower title)
          ∧ (jsIncludes (jsTrim (jsToLower vodName)) (jsTrim (jsToLower title))
             || jsIncludes (jsTrim (jsToLower title)) (jsTrim (jsToLower vodName))) = true)
    ∧ (getMatchConfidence vodName title = .low
        ↔ jsTrim (jsToLower vodName) ≠ jsTrim (jsToLower title)
          ∧ ¬(jsIncludes (jsTrim (jsToLower vodName)) (jsTrim (jsToLower title))
              || jsIncludes (jsTrim (jsToLower title)) (jsTrim (jsToLower vodName))) = true)
    ∧ getMatchConfidence "Avatar".data "avatar".data = .high
    ∧ getMatchConfidence "Avatar: Way of Water".data "Avatar".data = .medium
    ∧ getMatchConfidence "Inception".data "Avatar".data = .low := by
  refine ⟨rfl, ?_, ?_, ?_, by decide, by decide, by decide⟩ <;>
    · simp only [getMatchConfidence]
      split
      · rename_i h
        simp_all
      · split <;> rename_i h1 h2 <;> simp_all

/-- C2: for every finite set of non-null MatchResults with pairwise-distinct
(priority, confidence) pairs, and for every permutation of the order in which
they arrive, inserting them one by one and re-sorting after each arrival
yields the same final order: priority ascending, and within equal priority
confidence descending with high before medium before low (the order encoded
by the comparator `matchLe`). -/
theorem ranking_arrival_invariance (l₁ l₂ : List MatchResult)
    (hperm : l₁.Perm l₂)
    (hdist : l₁.Pairwise (fun a b => matchKey a ≠ matchKey b)) :
    (processArrivals l₁).2 = (processArrivals l₂).2
    ∧ SortedBy matchLe (processArrivals l₁).2 := by
  have hsort : ∀ l : List MatchResult, SortedBy matchLe (sortMatches l) :=
    fun l => stableSortBy_sorted matchLe_total matchLe_trans l
  have hview₁ : (processArrivals l₁).2 = sortMatches l₁ := by rw [processArrivals_eq]
  have hview₂ : (processArrivals l₂).2 = sortMatches l₂ := by rw [processArrivals_eq]
  have hp : (sortMatches l₁).Perm (sortMatches l₂) :=
    ((stableSortBy_perm matchLe l₁).trans hperm).trans (stableSortBy_perm matchLe l₂).symm
  have hd₁ : (sortMatches l₁).Pairwise (fun a b => matchKey a ≠ matchKey b) :=
    (List.Perm.pairwise_iff (fun h => Ne.symm h) (stableSortBy_perm matchLe l₁)).mpr hdist
  have huniq := sortedBy_perm_unique matchLe_antisymm_key (sortMatches l₁) (sortMatches l₂)
    hp (hsort l₁) (hsort l₂) hd₁
  exact ⟨by rw [hview₁, hview₂, huniq], by rw [hview₁]; exact hsort l₁⟩

/-- Witness for C2: two arrival orders of the same three results produce the
same view, and that view is priority 0 first, then high before low within
priority 1. -/
theorem ranking_arrival_invariance_witness :
    (processArrivals [wrA, wrB, wrC]).2 = (processArrivals [wrC, wrA, wrB]).2
    ∧ (processArrivals [wrA, wrB, wrC]).2 = [wrC, wrA, wrB] :=
  ⟨(ranking_arrival_invariance [wrA, wrB, wrC] [wrC, wrA, wrB]
      (by decide) (by decide)).1,
   by decide⟩

/-- C3: for any search over N snapshotted providers, regardless of the order
and outcome of the per-provider tasks, exactly N `result` events are emitted,
N equals the `totalSources` announced in `init`, the k-th emitted `result`
event carries `completed = k`, and the last one carries `completed = total`. -/
theorem stream_result_accounting (clean : List Char → List Char) (t : List Char)
    (did : Option String) (allSources arrival : List VodSource)
    (responses : VodSource → ProviderResponse)
    (hperm : arrival.Perm allSources) (hne : allSources ≠ []) :
    matchVodStreamGET clean (some t) did allSources arrival responses
      = .stream (.init did t (clean t) allSources.length
          :: (resultEvents allSources.length
                (fun s => searchSingleSource s (clean t) (responses s)) 0 arrival
              ++ [.done allSources.length
                    (foundCount (fun s => searchSingleSource s (clean t) (responses s))
                      arrival)]))
    ∧ (resultEvents allSources.length
        (fun s => searchSingleSource s (clean t) (responses s)) 0 arrival).length
        = allSources.length
    ∧ (∀ (i : Nat) (h : i < (resultEvents allSources.length
          (fun s => searchSingleSource s (clean t) (responses s)) 0 arrival).length),
        ((resultEvents allSources.length
            (fun s => searchSingleSource s (clean t) (responses s)) 0 arrival).get
          ⟨i, h⟩).completedOf = some (i + 1))
    ∧ ((resultEvents allSources.length
          (fun s => searchSingleSource s (clean t) (responses s)) 0 arrival).getLast?.bind
        StreamEvent.completedOf = some allSources.length) := by
  have hlen : arrival.length = allSources.length := hperm.length_eq
  have hne' : allSources.length ≠ 0 := fun h => hne (List.length_eq_zero.mp h)
  refine ⟨?_, ?_, ?_, ?_⟩
  · simp [matchVodStreamGET, hne', streamEvents]
  · rw [resultEvents_length]; exact hlen
  · intro i h
    simpa using resultEvents_get_completedOf allSources.length
      (fun s => searchSingleSource s (clean t) (responses s)) arrival 0 i h
  · have harr : arrival ≠ [] := by
      intro hnil
      rw [hnil] at hlen
      exact hne' hlen.symm
    rw [resultEvents_getLast_completedOf allSources.length
      (fun s => searchSingleSource s (clean t) (responses s)) arrival 0 harr,
      Nat.zero_add, hlen]

/-- Witness for C3: two providers settling in reverse snapshot order. -/
theorem stream_result_accounting_witness :
    matchVodStreamGET id (some "t".data) none [ws1, ws2] [ws2, ws1]
        (fun _ => ProviderResponse.failure)
      = .stream (.init none "t".data "t".data 2
          :: (resultEvents 2
                (fun s => searchSingleSource s "t".data ProviderResponse.failure) 0 [ws2, ws1]
              ++ [.done 2
                    (foundCount
                      (fun s => searchSingleSource s "t".data ProviderResponse.failure)
                      [ws2, ws1])])) :=
  (stream_result_accounting id "t".data none [ws1, ws2] [ws2, ws1]
    (fun _ => ProviderResponse.failure) (by decide) (by decide)).1

/-- C7: every event sequence the stream produces for a search with at least
one provider is exactly one `init` first, then only `result` events, then
exactly one final `done` whose `foundCount` equals the number of `result`
events carrying a non-null match. -/
theorem stream_event_shape (clean : List Char → List Char) (t : List Char)
    (did : Option String) (allSources arrival : List VodSource)
    (responses : VodSource → ProviderResponse) (hne : allSources ≠ []) :
    ∃ mid : List StreamEvent,
      matchVodStreamGET clean (some t) did allSources arrival responses
        = .stream (.init did t (clean t) allSources.length
            :: (mid ++ [.done allSources.length (mid.countP StreamEvent.isFoundResult)]))
      ∧ ∀ e ∈ mid, e.isResult = true := by
  have hne' : allSources.length ≠ 0 := fun h => hne (List.length_eq_zero.mp h)
  refine ⟨resultEvents allSources.length
    (fun s => searchSingleSource s (clean t) (responses s)) 0 arrival, ?_, ?_⟩
  · rw [resultEvents_countP_found]
    simp [matchVodStreamGET, hne', streamEvents]
  · intro e he
    exact resultEvents_isResult allSources.length
      (fun s => searchSingleSource s (clean t) (responses s)) arrival 0 e he

/-- Witness for C7: a one-provider search has the init-results-done shape. -/
theorem stream_event_shape_witness :
    ∃ mid : List StreamEvent,
      matchVodStreamGET id (some "u".data) none [ws1] [ws1]
          (fun _ => ProviderResponse.failure)
        = .stream (.init none "u".data "u".data 1
            :: (mid ++ [.done 1 (mid.countP StreamEvent.isFoundResult)]))
      ∧ ∀ e ∈ mid, e.isResult = true :=
  stream_event_shape id "u".data none [ws1] [ws1]
    (fun _ => ProviderResponse.failure) (by decide)

/-- C8: when the enabled-provider snapshot taken at the start of a search is
empty, the endpoint fails immediately with the terminal 404
"no providers configured" error, not a stream, and no `init`, `result` or
`done` event is ever emitted for that request. -/
theorem no_sources_terminal_error (clean : List Char → List Char) (t : List Char)
    (did : Option String) (docs : List VodSourceDoc) (arrival : List VodSource)
    (responses : VodSource → ProviderResponse)
    (hnone : ∀ d ∈ docs, d.enabled = false) :
    matchVodStreamGET clean (some t) did (getVodSourcesFromDB docs) arrival responses
      = .error 404 "No video sources configured"
    ∧ ∀ evs, matchVodStreamGET clean (some t) did (getVodSourcesFromDB docs) arrival responses
        ≠ .stream evs := by
  have hfil : docs.filter (·.enabled) = [] := by
    rw [List.filter_eq_nil_iff]
    intro a ha
    simp [hnone a ha]
  have hdb : getVodSourcesFromDB docs = [] := by
    simp [getVodSourcesFromDB, hfil, stableSortBy]
  rw [hdb]
  exact ⟨by simp [matchVodStreamGET], fun evs h => by simp [matchVodStreamGET] at h⟩

/-- Witness for C8: a registry holding only a disabled provider yields the
terminal 404. -/
theorem no_sources_terminal_error_witness :
    matchVodStreamGET id (some "t".data) none (getVodSourcesFromDB [wDisabledDoc]) []
        (fun _ => ProviderResponse.failure)
      = .error 404 "No video sources configured" :=
  (no_sources_terminal_error id "t".data none [wDisabledDoc] []
    (fun _ => ProviderResponse.failure) (by decide)).1

/-- C9: the `douban_id` parameter does not influence orchestration: two
requests differing only in `douban_id`, with identical provider configuration
and identical provider responses, produce event sequences that are identical
once the `doubanId` field echoed inside the `init` event is scrubbed (and
`StreamEvent.scrubDoubanId` touches nothing but that field). -/
theorem douban_id_noninterference (clean : List Char → List Char)
    (title : Option (List Char)) (did₁ did₂ : Option String)
    (allSources arrival : List VodSource)
    (responses : VodSource → ProviderResponse) :
    (matchVodStreamGET clean title did₁ allSources arrival responses).scrubDoubanId
      = (matchVodStreamGET clean title did₂ allSources arrival responses).scrubDoubanId := by
  cases title with
  | none => rfl
  | some t =>
    by_cases h : allSources.length = 0
    · simp [matchVodStreamGET, h]
    · simp [matchVodStreamGET, h, GetResponse.scrubDoubanId, streamEvents,
        StreamEvent.scrubDoubanId]

/-- C10: when the `title` query parameter is absent, the endpoint returns the
HTTP 400 "Missing title parameter" response regardless of the registry
contents and provider behaviour, so no provider is queried and no stream
event is emitted. -/
theorem missing_title_bad_request (clean : List Char → List Char) (did : Option String)
    (allSources arrival : List VodSource)
    (responses : VodSource → ProviderResponse) :
    matchVodStreamGET clean none did allSources arrival responses
      = .error 400 "Missing title parameter"
    ∧ ∀ evs, matchVodStreamGET clean none did allSources arrival responses
        ≠ .stream evs :=
  ⟨rfl, fun evs h => by simp [matchVodStreamGET] at h⟩

/-- C1 counterexample: a provider whose stored descriptor has no explicit
priority reaches the search as `priority = some 0` (the registry read's
`?? 0`), so its MatchResult carries priority 0, not 999, and it sorts
*before* — not after — a result whose provider has explicit priority 5. -/
theorem registry_default_priority_counterexample :
    (docToVodSource cxDocNoPrio).priority = some 0
    ∧ searchSingleSource (docToVodSource cxDocNoPrio) "t".data cxResp
        = some cxResultNoPrio
    ∧ cxResultNoPrio.priority ≠ 999
    ∧ searchSingleSource (docToVodSource cxDocPrio5) "t".data cxResp
        = some cxResultPrio5
    ∧ sortMatches [cxResultPrio5, cxResultNoPrio] = [cxResultNoPrio, cxResultPrio5] := by
  refine ⟨rfl, by decide, by decide, by decide, by decide⟩

/-- C1 (amended): for every provider whose stored descriptor has no explicit
priority, the registry read maps the absent priority to 0 (`docToVodSource`'s
`?? 0`), so every MatchResult produced for it in a search carries priority 0
— the Orchestrator's `?? 999` fallback is unreachable on this read path —
and it therefore sorts strictly before every result whose priority is
positive (in particular before every explicitly configured positive
priority), not last. -/
theorem registry_default_priority_zero (doc : VodSourceDoc)
    (hp : doc.priority = none) (kw : List Char) (resp : ProviderResponse)
    (r : MatchResult)
    (hr : searchSingleSource (docToVodSource doc) kw resp = some r) :
    r.priority = 0
    ∧ ∀ rr : MatchResult, 0 < rr.priority →
        matchLe r rr = true ∧ matchLe rr r = false := by
  have h0 : r.priority = 0 := by
    have := searchSingleSource_priority (docToVodSource doc) kw resp r hr
    simpa [docToVodSource, hp] using this
  refine ⟨h0, ?_⟩
  intro rr hrr
  constructor
  · rw [matchLe_iff]
    omega
  · rw [Bool.eq_false_iff]
    rw [Ne, matchLe_iff]
    omega

/-- Witness for the amended C1, at the concrete no-priority document. -/
theorem registry_default_priority_zero_witness :
    cxDocNoPrio.priority = none
    ∧ cxResultNoPrio.priority = 0
    ∧ matchLe cxResultNoPrio cxResultPrio5 = true
    ∧ matchLe cxResultPrio5 cxResultNoPrio = false := by
  have h := registry_default_priority_zero cxDocNoPrio rfl "t".data cxResp
    cxResultNoPrio (by decide)
  exact ⟨rfl, h.1, (h.2 cxResultPrio5 (by decide)).1, (h.2 cxResultPrio5 (by decide)).2⟩

/-- C4: for every provider descriptor and search title, the per-provider
query function is total with result type `Option MatchResult` (it never
propagates an exception), and each failure mode yields `none`: a rejected
fetch (network error or timeout), a non-2xx status, a body that is not
parseable JSON (for the text-first variant, also an HTML or XML page
delivered with status 200, by prefix check), an absent or false success
marker (`code != 1`), and an absent or empty candidate list.  Stated for both
adapter variants of `route.ts`. -/
theorem adapter_failure_yields_null (source : VodSource) (kw : List Char) :
    (searchSingleSource source kw .failure = none)
    ∧ (∀ text parsed, searchSingleSource source kw (.success false text parsed) = none)
    ∧ (∀ text, searchSingleSource source kw (.success true text none) = none)
    ∧ (∀ text data, data.code ≠ some 1 →
        searchSingleSource source kw (.success true text (some data)) = none)
    ∧ (∀ text data, data.list.getD [] = [] →
        searchSingleSource source kw (.success true text (some data)) = none)
    ∧ (searchSingleSourceTextFirst source kw .failure = none)
    ∧ (∀ text parsed,
        searchSingleSourceTextFirst source kw (.success false text parsed) = none)
    ∧ (∀ text parsed,
        (jsStartsWith text "<?xml".data || jsStartsWith text "<!DOCTYPE".data
          || jsStartsWith text "<html".data) = true →
        searchSingleSourceTextFirst source kw (.success true text parsed) = none)
    ∧ (∀ text, searchSingleSourceTextFirst source kw (.success true text none) = none)
    ∧ (∀ text data, data.code ≠ some 1 →
        searchSingleSourceTextFirst source kw (.success true text (some data)) = none)
    ∧ (∀ text data, data.list.getD [] = [] →
        searchSingleSourceTextFirst source kw (.success true text (some data)) = none) := by
  refine ⟨rfl, ?_, ?_, ?_, ?_, rfl, ?_, ?_, ?_, ?_, ?_⟩
  · intro text parsed
    simp [searchSingleSource]
  · intro text
    simp [searchSingleSource]
  · intro text data hc
    simp [searchSingleSource, hc]
  · intro text data hl
    by_cases hc : data.code = some 1 <;> simp [searchSingleSource, hc, hl]
  · intro text parsed
    simp [searchSingleSourceTextFirst]
  · intro text parsed hpre
    simp only [searchSingleSourceTextFirst, Bool.not_true, Bool.false_eq_true, if_false]
    rw [if_pos hpre]
  · intro text
    by_cases hpre : (jsStartsWith text "<?xml".data || jsStartsWith text "<!DOCTYPE".data
        || jsStartsWith text "<html".data) = true <;>
      simp [searchSingleSourceTextFirst, hpre]
  · intro text data hc
    by_cases hpre : (jsStartsWith text "<?xml".data || jsStartsWith text "<!DOCTYPE".data
        || jsStartsWith text "<html".data) = true <;>
      simp [searchSingleSourceTextFirst, hpre, hc]
  · intro text data hl
    by_cases hpre : (jsStartsWith text "<?xml".data || jsStartsWith text "<!DOCTYPE".data
        || jsStartsWith text "<html".data) = true <;>
      by_cases hc : data.code = some 1 <;>
        simp [searchSingleSourceTextFirst, hpre, hc, hl]

/-- Witness for C4: the hypothesis-bearing failure modes at concrete inputs —
a `code = 0` body, an HTML page with status 200, a `code = 2` body, and an
empty candidate list — all yield `none`. -/
theorem adapter_failure_yields_null_witness :
    searchSingleSource ws1 "t".data
        (.success true []
          (some { code := some 0, msg := none, list := some [⟨7, "t".data⟩] })) = none
    ∧ searchSingleSourceTextFirst ws1 "t".data
        (.success true "<html>oops".data
          (some { code := some 1, msg := none, list := some [⟨7, "t".data⟩] })) = none
    ∧ searchSingleSourceTextFirst ws1 "t".data
        (.success true []
          (some { code := some 2, msg := none, list := some [⟨7, "t".data⟩] })) = none
    ∧ searchSingleSource ws1 "t".data
        (.success true []
          (some { code := some 1, msg := none, list := some [] })) = none := by
  have h := adapter_failure_yields_null ws1 "t".data
  exact ⟨h.2.2.2.1 []
      { code := some 0, msg := none, list := some [⟨7, "t".data⟩] } (by decide),
    h.2.2.2.2.2.2.2.1 "<html>oops".data
      (some { code := some 1, msg := none, list := some [⟨7, "t".data⟩] }) (by decide),
    h.2.2.2.2.2.2.2.2.2.1 []
      { code := some 2, msg := none, list := some [⟨7, "t".data⟩] } (by decide),
    h.2.2.2.2.1 []
      { code := some 1, msg := none, list := some [] } (by decide)⟩

/-- C6 counterexample: with keyword `"abc d"` and candidates
`["zzz", " abc "]`, no exact match exists, and the second candidate's
normalised (lowercased, trimmed) name `"abc"` is contained in the normalised
title, so the claimed precedence selects it (`bestMatchSpec` confirms); the
code's containment check does not trim the candidate name, skips it, and
falls through to the first candidate `"zzz"`. -/
theorem best_match_selection_counterexample :
    ([cxItemZzz, cxItemAbc].find? (fun item =>
        jsTrim (jsToLower item.vod_name) = jsTrim (jsToLower "abc d".data)) = none)
    ∧ jsIncludes (jsTrim (jsToLower "abc d".data))
        (jsTrim (jsToLower cxItemAbc.vod_name)) = true
    ∧ bestMatchSpec [cxItemZzz, cxItemAbc] "abc d".data = some cxItemAbc
    ∧ selectBestMatch [cxItemZzz, cxItemAbc] "abc d".data = some cxItemZzz
    ∧ cxItemZzz ≠ cxItemAbc := by decide

/-- C6 (amended): for every non-empty candidate list the adapter selects
exactly one candidate, by this precedence: (a) the first candidate whose
lowercased, trimmed name equals the lowercased, trimmed title; (b) else the
first candidate whose lowercased — but *untrimmed* — name contains the
normalised title, or whose lowercased untrimmed name is contained in the
normalised title; (c) else the first candidate in the provider's returned
order. -/
theorem best_match_selection_amended (list : List DramaItem) (keyword : List Char) :
    (list ≠ [] → (selectBestMatch list keyword).isSome = true)
    ∧ (∀ m, list.find? (fun item =>
          jsTrim (jsToLower item.vod_name) = jsTrim (jsToLower keyword)) = some m →
        selectBestMatch list keyword = some m)
    ∧ (list.find? (fun item =>
          jsTrim (jsToLower item.vod_name) = jsTrim (jsToLower keyword)) = none →
        ∀ m, list.find? (fun item =>
            jsIncludes (jsToLower item.vod_name) (jsTrim (jsToLower keyword))
            || jsIncludes (jsTrim (jsToLower keyword)) (jsToLower item.vod_name)) = some m →
          selectBestMatch list keyword = some m)
    ∧ (list.find? (fun item =>
          jsTrim (jsToLower item.vod_name) = jsTrim (jsToLower keyword)) = none →
        list.find? (fun item =>
            jsIncludes (jsToLower item.vod_name) (jsTrim (jsToLower keyword))
            || jsIncludes (jsTrim (jsToLower keyword)) (jsToLower item.vod_name)) = none →
        selectBestMatch list keyword = list.head?) := by
  refine ⟨?_, ?_, ?_, ?_⟩
  · intro hne
    simp only [selectBestMatch]
    rcases h1 : list.find? (fun item =>
        jsTrim (jsToLower item.vod_name) = jsTrim (jsToLower keyword)) with _ | m
    · rcases h2 : list.find? (fun item =>
          jsIncludes (jsToLower item.vod_name) (jsTrim (jsToLower keyword))
          || jsIncludes (jsTrim (jsToLower keyword)) (jsToLower item.vod_name)) with _ | m
      · simp only [h1, h2]
        cases list with
        | nil => exact absurd rfl hne
        | cons a t => simp
      · simp [h1, h2]
    · simp [h1]
  · intro m hm
    simp [selectBestMatch, hm]
  · intro h1 m hm
    simp [selectBestMatch, h1, hm]
  · intro h1 h2
    simp [selectBestMatch, h1, h2]

/-- Witness for the amended C6: a one-candidate list with no exact and no
containment match still selects a candidate — the first one. -/
theorem best_match_selection_amended_witness :
    (selectBestMatch [cxItemZzz] "q".data).isSome = true
    ∧ selectBestMatch [cxItemZzz] "q".data = [cxItemZzz].head? := by
  have h := best_match_selection_amended [cxItemZzz] "q".data
  exact ⟨h.1 (by decide), h.2.2.2 (by decide) (by decide)⟩
